import Mathlib

/-!
Verification of the CSI4107_A1 information-retrieval system.

This file shallowly embeds the core of the repository's three Python
modules and proves (or refutes) the frozen claims about them:

* `ir_system.py`   — tokenization (`preprocess`), index construction
  (`build_index`), BM25 scoring (`score_query`) and ranking (`run_system`);
* `trec_eval.py`   — the TREC metrics engine (`calculate_metrics`,
  `print_results`);
* `evaluate_map.py` — standalone Average Precision
  (`calculate_average_precision`).

Python floats are modelled as exact rationals (ℚ) in the metrics code and
as reals (ℝ) in the BM25 scorer, whose idf uses the natural logarithm.
Python dictionaries are modelled as association lists, sets as
duplicate-free lists.  Code that can raise (`ZeroDivisionError`,
`KeyError`) is modelled with `Option`/`Except`.
-/

namespace IRSystem

/-! ### Tokenizer (`ir_system.py`, `preprocess`, lines 39-62)

The Python function lowercases, replaces every character outside
`[a-z0-9\s]` by a space, splits on whitespace runs, drops stopwords and
tokens of length ≤ 1, and finally applies Porter stemming when the NLTK
library is importable.  The stemmer is an external capability of the
environment, modelled as an optional `String → String`; the declared
`stemming` parameter of the Python function is never read by its body and
is embedded as an (unused) `Bool` argument. -/

/-- Whitespace-run splitting with an accumulator of the characters of the
current (reversed) token: models Python's `str.split()` with no argument,
which discards empty fields. -/
def splitTokensAux : List Char → List Char → List String
  | [], acc => if acc.isEmpty then [] else [String.mk acc.reverse]
  | c :: cs, acc =>
      if c.isWhitespace then
        if acc.isEmpty then splitTokensAux cs []
        else String.mk acc.reverse :: splitTokensAux cs []
      else splitTokensAux cs (c :: acc)

/-- Tokenization by splitting on whitespace runs (step 2 of `preprocess`). -/
def splitTokens (cs : List Char) : List String :=
  splitTokensAux cs []

/-- Replacement performed by `re.sub(r'[^a-z0-9\s]', ' ', text)` on the
already-lowercased text: any character that is not a lowercase letter, a
digit or whitespace becomes a space. -/
def cleanChar (c : Char) : Char :=
  if (decide ('a' ≤ c) && decide (c ≤ 'z')) ||
     (decide ('0' ≤ c) && decide (c ≤ '9')) || c.isWhitespace then c else ' '

/-- Embedding of `preprocess(text, stemming=True)` from `ir_system.py`.
`stemmer` models the environment capability probed by
`try: from nltk.stem import PorterStemmer` — `some stem` when the import
succeeds, `none` when it raises `ImportError`.  The `stemming` argument
mirrors the Python parameter, which the body never reads. -/
def preprocess (stemmer : Option (String → String)) (stopwords : List String)
    (text : String) (stemming : Bool) : List String :=
  if text = "" then []
  else
    let lowered := text.data.map Char.toLower
    let cleaned := lowered.map cleanChar
    let tokens := splitTokens cleaned
    let tokens := tokens.filter (fun t => decide (t ∉ stopwords ∧ 1 < t.length))
    match stemmer with
    | some stem => tokens.map stem
    | none => tokens

/-- A stemmer behaving like NLTK's Porter stemmer on the single word
`running` (which Porter stems to `run`), used to exhibit that stemming is
applied after the stopword/length filter. -/
def runStem (t : String) : String :=
  if t = "running" then "run" else t

/-! ### Index builder and BM25 scorer (`ir_system.py`) -/

/-- BM25 parameter `k1 = 1.2` (`ir_system.py` line 15). -/
noncomputable def k1 : ℝ := 1.2

/-- BM25 parameter `b = 0.75` (`ir_system.py` line 16). -/
noncomputable def b : ℝ := 0.75

/-- The idf computed by `score_query` (`ir_system.py` lines 124-125):
`math.log((num_docs - n_docs_with_term + 0.5) / (n_docs_with_term + 0.5) + 1)`. -/
noncomputable def idf (num_docs n_docs_with_term : ℕ) : ℝ :=
  Real.log (((num_docs : ℝ) - (n_docs_with_term : ℝ) + 0.5) /
    ((n_docs_with_term : ℝ) + 0.5) + 1)

/-- Model of `collections.Counter(tokens).items()`: the distinct terms in
first-occurrence order, each paired with its frequency. -/
def term_counts (tokens : List String) : List (String × ℕ) :=
  tokens.eraseDups.map (fun t => (t, tokens.count t))

/-- One `inverted_index[term].append((doc_id, tf))` on the
`defaultdict(list)`: append to the term's postings list, creating the
(empty) list first when the key is new. -/
def append_posting (idx : List (String × List (String × ℕ))) (term : String)
    (post : String × ℕ) : List (String × List (String × ℕ)) :=
  if (idx.lookup term).isSome then
    idx.map (fun p => if p.1 = term then (p.1, p.2 ++ [post]) else p)
  else idx ++ [(term, [post])]

/-- The four values returned by `build_index`: inverted index, document
lengths, average document length and corpus size. -/
structure IndexData where
  inverted_index : List (String × List (String × ℕ))
  doc_lengths : List (String × ℕ)
  avg_doc_length : ℚ
  num_docs : ℕ

/-- Embedding of `build_index` (`ir_system.py` lines 65-106) over an
in-memory corpus of `(doc id, title, text)` records in file order.
`stemmer` and `stopwords` are the module environment consumed by
`preprocess`.  The average document length starts at `0` and becomes
`total_tokens / num_docs` only when `num_docs > 0`. -/
def build_index (stemmer : Option (String → String)) (stopwords : List String)
    (corpus : List (String × String × String)) (use_full_text : Bool) : IndexData :=
  let step := corpus.foldl
    (fun (st : List (String × List (String × ℕ)) × List (String × ℕ) × ℕ × ℕ) doc =>
      let content := doc.2.1 ++ (if use_full_text then " " ++ doc.2.2 else "")
      let tokens := preprocess stemmer stopwords content true
      let length := tokens.length
      let doc_lengths := st.2.1 ++ [(doc.1, length)]
      let inverted_index := (term_counts tokens).foldl
        (fun idx tc => append_posting idx tc.1 (doc.1, tc.2)) st.1
      (inverted_index, doc_lengths, st.2.2.1 + length, st.2.2.2 + 1))
    ([], [], 0, 0)
  { inverted_index := step.1
    doc_lengths := step.2.1
    avg_doc_length :=
      if 0 < step.2.2.2 then (step.2.2.1 : ℚ) / (step.2.2.2 : ℚ) else 0
    num_docs := step.2.2.2 }

/-- One `scores[doc_id] += v` on the `defaultdict(float)`: update the
entry if present, create it (starting from 0.0) otherwise. -/
noncomputable def add_score (scores : List (String × ℝ)) (doc_id : String) (v : ℝ) :
    List (String × ℝ) :=
  if (scores.lookup doc_id).isSome then
    scores.map (fun p => if p.1 = doc_id then (p.1, p.2 + v) else p)
  else scores ++ [(doc_id, v)]

/-- Embedding of `score_query` (`ir_system.py` lines 109-138).  Scores are
an association list in first-touch order modelling the
`defaultdict(float)`.  A missing `doc_lengths[doc_id]` raises `KeyError`
in Python, and `doc_len / avg_doc_length` raises `ZeroDivisionError` when
the average document length is zero; both are modelled as
`Except.error`. -/
noncomputable def score_query (query_tokens : List String)
    (inverted_index : List (String × List (String × ℕ)))
    (doc_lengths : List (String × ℕ)) (avg_doc_length : ℚ) (num_docs : ℕ) :
    Except String (List (String × ℝ)) :=
  query_tokens.foldlM
    (fun scores term =>
      match inverted_index.lookup term with
      | none => pure scores
      | some postings =>
          let idf_val := idf num_docs postings.length
          postings.foldlM
            (fun scores post =>
              match doc_lengths.lookup post.1 with
              | none => Except.error "KeyError"
              | some doc_len =>
                  if avg_doc_length = 0 then Except.error "ZeroDivisionError"
                  else
                    let numerator := (post.2 : ℝ) * (k1 + 1)
                    let denominator := (post.2 : ℝ) +
                      k1 * (1 - b + b * ((doc_len : ℝ) / ((avg_doc_length : ℚ) : ℝ)))
                    pure (add_score scores post.1 (idf_val * (numerator / denominator))))
            scores)
    []

/-- The sort-truncate-rank step of `run_system` (`ir_system.py` lines
170-173): `sorted(doc_scores.items(), key=lambda x: x[1], reverse=True)[:100]`
followed by `enumerate(sorted_docs, 1)`, producing `(doc_id, rank, score)`
records. -/
noncomputable def rank_and_truncate (doc_scores : List (String × ℝ)) :
    List (String × ℕ × ℝ) :=
  let sorted_docs :=
    (List.insertionSort (fun x y : String × ℝ => y.2 ≤ x.2) doc_scores).take 100
  sorted_docs.enum.map (fun p => (p.2.1, p.1 + 1, p.2.2))

end IRSystem


namespace TrecEval

/-! ### TREC metrics engine (`trec_eval.py`)

Relevance judgments (`qrels[query_id]`, a Python set) are modelled as
duplicate-free lists of document ids; the retrieved list of a query is a
list of `(doc_id, rank, score)` records as produced by `load_results`
(rank parsed by `int(...)`, hence ℤ; score by `float(...)`, modelled
as ℚ). -/

/-- One record of `results[query_id]` in `trec_eval.py` and
`evaluate_map.py`: the `(doc_id, rank, score)` tuple. -/
structure Retrieved where
  docId : String
  rank : ℤ
  score : ℚ
deriving DecidableEq

/-- The per-position loop of `calculate_metrics` (lines 115-123): running
`rel_ret` count, `precision = rel_ret / (i + 1)` and
`recall = rel_ret / num_relevant` at every position.  Returns the final
`rel_ret` together with `precision_at_ranks` and `recall_at_ranks`. -/
def metrics_loop (relevant_docs : List String) (num_relevant : ℕ) :
    List Retrieved → ℕ → ℕ → ℕ × List ℚ × List ℚ
  | [], rel_ret, _ => (rel_ret, [], [])
  | e :: rest, rel_ret, i =>
      let rel_ret' := if e.docId ∈ relevant_docs then rel_ret + 1 else rel_ret
      let precision : ℚ := (rel_ret' : ℚ) / ((i : ℚ) + 1)
      let recall' : ℚ := (rel_ret' : ℚ) / (num_relevant : ℚ)
      let res := metrics_loop relevant_docs num_relevant rest rel_ret' (i + 1)
      (res.1, precision :: res.2.1, recall' :: res.2.2)

/-- The `precision_at_ranks` list of `calculate_metrics`. -/
def precision_at_ranks (relevant_docs : List String) (retrieved_docs : List Retrieved) :
    List ℚ :=
  (metrics_loop relevant_docs relevant_docs.length retrieved_docs 0 0).2.1

/-- The `recall_at_ranks` list of `calculate_metrics`. -/
def recall_at_ranks (relevant_docs : List String) (retrieved_docs : List Retrieved) :
    List ℚ :=
  (metrics_loop relevant_docs relevant_docs.length retrieved_docs 0 0).2.2

/-- The final `rel_ret` count of `calculate_metrics`. -/
def rel_ret_count (relevant_docs : List String) (retrieved_docs : List Retrieved) : ℕ :=
  (metrics_loop relevant_docs relevant_docs.length retrieved_docs 0 0).1

/-- The Average Precision loop shared by `calculate_metrics`
(lines 128-133, accumulator `rel_found` / `ap_sum`) and
`calculate_average_precision` in `evaluate_map.py` (lines 50-57,
accumulator `relevant_retrieved` / `precision_sum`): both walk the
retrieved list adding `rel_found / (i + 1)` at every relevant position.
Returns the final count together with the accumulated sum. -/
def ap_loop (relevant_docs : List String) :
    List Retrieved → ℕ → ℕ → ℕ × ℚ
  | [], rel_found, _ => (rel_found, 0)
  | e :: rest, rel_found, i =>
      if e.docId ∈ relevant_docs then
        let rel_found' := rel_found + 1
        let p : ℚ := (rel_found' : ℚ) / ((i : ℚ) + 1)
        let res := ap_loop relevant_docs rest rel_found' (i + 1)
        (res.1, p + res.2)
      else ap_loop relevant_docs rest rel_found (i + 1)

/-- Embedding of `calculate_average_precision` from `evaluate_map.py`
(lines 45-62). -/
def calculate_average_precision (relevant_docs : List String)
    (retrieved_docs : List Retrieved) : ℚ :=
  if relevant_docs.isEmpty then 0
  else
    let r := ap_loop relevant_docs retrieved_docs 0 0
    if r.1 = 0 then 0 else r.2 / (relevant_docs.length : ℚ)

/-- The AP of a query in `calculate_metrics` (`trec_eval.py` lines
127-135): `ap_sum / num_relevant` when `num_relevant > 0`, else `0.0`. -/
def ap_trec (relevant_docs : List String) (retrieved_docs : List Retrieved) : ℚ :=
  if 0 < relevant_docs.length then
    (ap_loop relevant_docs retrieved_docs 0 0).2 / (relevant_docs.length : ℚ)
  else 0

/-- R-Precision as computed by `calculate_metrics` (`trec_eval.py` lines
151-158): `r_prec` stays `0.0` unless `num_relevant <= len(retrieved_docs)`;
under that guard it counts the relevant documents among the first
`min(num_relevant, len(retrieved_docs))` retrieved and divides by
`num_relevant`. -/
def r_prec (relevant_docs : List String) (retrieved_docs : List Retrieved) : ℚ :=
  if relevant_docs.length ≤ retrieved_docs.length then
    (((retrieved_docs.take (min relevant_docs.length retrieved_docs.length)).filter
        (fun e => decide (e.docId ∈ relevant_docs))).length : ℚ) /
      (relevant_docs.length : ℚ)
  else 0

/-- The R-Precision rule asserted by the claim and the spec: count the
relevant documents among the retrieved list up to
`min(R, retrieved_count)` and divide by `R = num_relevant` regardless of
whether at least `R` documents were retrieved. -/
def r_prec_claimed (relevant_docs : List String) (retrieved_docs : List Retrieved) : ℚ :=
  (((retrieved_docs.take (min relevant_docs.length retrieved_docs.length)).filter
      (fun e => decide (e.docId ∈ relevant_docs))).length : ℚ) /
    (relevant_docs.length : ℚ)

/-- Reciprocal Rank as computed by `calculate_metrics` (`trec_eval.py`
lines 161-167): walk the retrieved list in order and return
`1.0 / rank` — the record's rank field — at the first relevant document,
`0.0` when none is relevant. -/
def recip_rank (relevant_docs : List String) : List Retrieved → ℚ
  | [] => 0
  | e :: rest =>
      if e.docId ∈ relevant_docs then 1 / (e.rank : ℚ)
      else recip_rank relevant_docs rest

/-- Per-query metrics record stored in `query_metrics[query_id]`
(`trec_eval.py` lines 170-181).  The Python `recall` key is the field
`recall'` (`recall` alone clashes with a Lean keyword). -/
structure QueryMetrics where
  ap : ℚ
  P_5 : ℚ
  P_10 : ℚ
  P_30 : ℚ
  recall' : ℚ
  Rprec : ℚ
  recip_rank : ℚ
  num_rel : ℕ
  num_ret : ℕ
  num_rel_ret : ℕ
deriving DecidableEq

/-- The aggregate `all_metrics` dictionary built at `trec_eval.py` lines
184-195, modelled as a record; the Python dictionary stays empty when
`total_queries == 0`, which is modelled as `none` below. -/
structure AllMetrics where
  map : ℚ
  P_5 : ℚ
  P_10 : ℚ
  P_30 : ℚ
  recall' : ℚ
  Rprec : ℚ
  recip_rank : ℚ
  num_q : ℕ
  num_rel : ℕ
  num_ret : ℕ
  num_rel_ret : ℕ
deriving DecidableEq

/-- The per-query metric computation of `calculate_metrics`
(`trec_eval.py` lines 110-181), assembled from the loops above. -/
def per_query_metrics (relevant_docs : List String) (retrieved_docs : List Retrieved) :
    QueryMetrics :=
  { ap := ap_trec relevant_docs retrieved_docs
    P_5 := (precision_at_ranks relevant_docs retrieved_docs).getD 4 0
    P_10 := (precision_at_ranks relevant_docs retrieved_docs).getD 9 0
    P_30 := (precision_at_ranks relevant_docs retrieved_docs).getD 29 0
    recall' := (recall_at_ranks relevant_docs retrieved_docs).getLastD 0
    Rprec := r_prec relevant_docs retrieved_docs
    recip_rank := recip_rank relevant_docs retrieved_docs
    num_rel := relevant_docs.length
    num_ret := retrieved_docs.length
    num_rel_ret := rel_ret_count relevant_docs retrieved_docs }

/-- Embedding of `calculate_metrics` (`trec_eval.py` lines 74-197).
A query contributes only when it appears in both `qrels` and `results`
with a non-empty relevant set; queries are processed in the order of the
`qrels` association list (the Python code iterates its keys in sorted
order, which only permutes the per-query records and the summation order
of the same aggregate sums).  When no query qualifies, the Python
`all_metrics` dictionary stays empty, modelled as `none`. -/
def calculate_metrics (qrels : List (String × List String))
    (results : List (String × List Retrieved)) :
    Option AllMetrics × List (String × QueryMetrics) :=
  let evaluated := qrels.filterMap (fun q =>
    match results.lookup q.1 with
    | none => none
    | some ret => if q.2.isEmpty then none else some (q.1, q.2, ret))
  let query_metrics := evaluated.map (fun q => (q.1, per_query_metrics q.2.1 q.2.2))
  let total_queries := evaluated.length
  if total_queries = 0 then (none, query_metrics)
  else
    (some
      { map := (query_metrics.map (fun q => q.2.ap)).sum / (total_queries : ℚ)
        P_5 := (query_metrics.map (fun q => q.2.P_5)).sum / (total_queries : ℚ)
        P_10 := (query_metrics.map (fun q => q.2.P_10)).sum / (total_queries : ℚ)
        P_30 := (query_metrics.map (fun q => q.2.P_30)).sum / (total_queries : ℚ)
        recall' := (query_metrics.map (fun q => q.2.recall')).sum / (total_queries : ℚ)
        Rprec := (query_metrics.map (fun q => q.2.Rprec)).sum / (total_queries : ℚ)
        recip_rank := (query_metrics.map (fun q => q.2.recip_rank)).sum / (total_queries : ℚ)
        num_q := total_queries
        num_rel := (query_metrics.map (fun q => q.2.num_rel)).sum
        num_ret := (query_metrics.map (fun q => q.2.num_ret)).sum
        num_rel_ret := (query_metrics.map (fun q => q.2.num_rel_ret)).sum },
     query_metrics)

/-- Embedding of `print_results` (`trec_eval.py` lines 199-242), returning
the sequence of printed `(metric, query id or all, value)` records.  The
per-query blocks read `query_metrics` and always print; the overall block
reads `all_metrics['map']` and the other keys, which on the empty
dictionary (`none`) raises `KeyError` — modelled as `Except.error`
carrying the per-query lines already printed. -/
def print_results (all_metrics : Option AllMetrics)
    (query_metrics : List (String × QueryMetrics)) :
    Except (List (String × String × ℚ)) (List (String × String × ℚ)) :=
  let perQ :=
    query_metrics.map (fun q => ("map", q.1, q.2.ap)) ++
    query_metrics.map (fun q => ("Rprec", q.1, q.2.Rprec)) ++
    query_metrics.map (fun q => ("P_5", q.1, q.2.P_5)) ++
    query_metrics.map (fun q => ("P_10", q.1, q.2.P_10)) ++
    query_metrics.map (fun q => ("P_30", q.1, q.2.P_30)) ++
    query_metrics.map (fun q => ("recall", q.1, q.2.recall')) ++
    query_metrics.map (fun q => ("recip_rank", q.1, q.2.recip_rank))
  match all_metrics with
  | none => Except.error perQ
  | some m =>
      Except.ok (perQ ++
        [("map", "all", m.map), ("Rprec", "all", m.Rprec), ("P_5", "all", m.P_5),
         ("P_10", "all", m.P_10), ("P_30", "all", m.P_30), ("recall", "all", m.recall'),
         ("recip_rank", "all", m.recip_rank), ("num_q", "all", (m.num_q : ℚ)),
         ("num_rel", "all", (m.num_rel : ℚ)), ("num_ret", "all", (m.num_ret : ℚ)),
         ("num_rel_ret", "all", (m.num_rel_ret : ℚ))])

/-- C1 counterexample: with two relevant documents and a single retrieved
document that is relevant, the code's R-Precision is a hard `0.0`
(the `num_relevant <= len(retrieved_docs)` guard fails), while the
claimed penalized formula — relevant among the first
`min(R, retrieved_count)` divided by `R` — gives `1/2`. -/
theorem r_prec_short_list_counterexample :
    r_prec ["D1", "D2"] [⟨"D1", 1, 0⟩] = 0 ∧
    r_prec_claimed ["D1", "D2"] [⟨"D1", 1, 0⟩] = 1 / 2 ∧
    r_prec ["D1", "D2"] [⟨"D1", 1, 0⟩] ≠ r_prec_claimed ["D1", "D2"] [⟨"D1", 1, 0⟩] := by
  have h0 : r_prec ["D1", "D2"] [⟨"D1", 1, 0⟩] = 0 := by simp [r_prec]
  have h1 : r_prec_claimed ["D1", "D2"] [⟨"D1", 1, 0⟩] = 1 / 2 := by simp [r_prec_claimed]
  exact ⟨h0, h1, by rw [h0, h1]; norm_num⟩

/-- C1 (amended): for every query whose retrieved list is shorter than
`R = |relevant docs|`, the R-Precision computed by `calculate_metrics` is
a hard `0.0`; the count-up-to-`min(R, retrieved_count)`-divided-by-`R`
rule is applied only when at least `R` documents were retrieved. -/
theorem r_prec_short_list_zero (relevant_docs : List String)
    (retrieved_docs : List Retrieved)
    (h : retrieved_docs.length < relevant_docs.length) :
    r_prec relevant_docs retrieved_docs = 0 := by
  unfold r_prec
  rw [if_neg (not_le.mpr h)]

/-- C1 witness: a retrieved list of length 1 against two relevant
documents receives R-Precision `0`. -/
theorem r_prec_short_list_zero_witness :
    ([(⟨"D1", 1, 0⟩ : Retrieved)].length < (["D1", "D2"] : List String).length) ∧
    r_prec ["D1", "D2"] [⟨"D1", 1, 0⟩] = 0 :=
  ⟨by decide, r_prec_short_list_zero ["D1", "D2"] [⟨"D1", 1, 0⟩] (by decide)⟩

/-- C8: the Reciprocal Rank computed by `calculate_metrics` is `0.0` when
no retrieved document is relevant, and otherwise equals `1` divided by the
reported rank field of the first relevant document in the retrieved list
(not `1` over its position index). -/
theorem recip_rank_first_relevant (relevant_docs : List String)
    (retrieved_docs pre post : List Retrieved) (e : Retrieved) :
    ((∀ x ∈ retrieved_docs, x.docId ∉ relevant_docs) →
      recip_rank relevant_docs retrieved_docs = 0) ∧
    ((∀ x ∈ pre, x.docId ∉ relevant_docs) → e.docId ∈ relevant_docs →
      recip_rank relevant_docs (pre ++ e :: post) = 1 / (e.rank : ℚ)) := by
  constructor
  · intro hnone
    induction retrieved_docs with
    | nil => rfl
    | cons x rest ih =>
        have hx : x.docId ∉ relevant_docs := hnone x (List.mem_cons_self x rest)
        have hrest : ∀ y ∈ rest, y.docId ∉ relevant_docs :=
          fun y hy => hnone y (List.mem_cons_of_mem x hy)
        simpa [recip_rank, hx] using ih hrest
  · intro hpre he
    induction pre with
    | nil => simp [recip_rank, he]
    | cons x rest ih =>
        have hx : x.docId ∉ relevant_docs := hpre x (List.mem_cons_self x rest)
        have hrest : ∀ y ∈ rest, y.docId ∉ relevant_docs :=
          fun y hy => hpre y (List.mem_cons_of_mem x hy)
        simpa [recip_rank, hx] using ih hrest

/-- C8 witness: with relevant set `{D1}`, a retrieved list whose only
document is irrelevant scores `0`, and the list `[D2@rank 1, D1@rank 5]`
scores `1/5` — one over the rank field `5` of the first relevant
document, not one over its position `2`. -/
theorem recip_rank_first_relevant_witness :
    recip_rank ["D1"] [⟨"D2", 1, 0⟩] = 0 ∧
    recip_rank ["D1"] [⟨"D2", 1, 0⟩, ⟨"D1", 5, 0⟩] = 1 / ((5 : ℤ) : ℚ) :=
  ⟨(recip_rank_first_relevant ["D1"] [⟨"D2", 1, 0⟩] [] [] ⟨"D1", 5, 0⟩).1 (by decide),
   (recip_rank_first_relevant ["D1"] [] [⟨"D2", 1, 0⟩] [] ⟨"D1", 5, 0⟩).2
     (by decide) (by decide)⟩

/-- Auxiliary invariant for the recall sequence: the recall values emitted
by `metrics_loop` form a non-decreasing chain and are all bounded below by
the recall of the running count the loop was entered with. -/
theorem metrics_loop_recall_chain (relevant_docs : List String) (num_relevant : ℕ) :
    ∀ (retrieved_docs : List Retrieved) (rel_ret i : ℕ),
      (metrics_loop relevant_docs num_relevant retrieved_docs rel_ret i).2.2.Chain' (· ≤ ·) ∧
      ∀ x ∈ (metrics_loop relevant_docs num_relevant retrieved_docs rel_ret i).2.2,
        (rel_ret : ℚ) / (num_relevant : ℚ) ≤ x := by
  intro retrieved_docs
  induction retrieved_docs with
  | nil => intro rel_ret i; simp [metrics_loop]
  | cons e rest ih =>
      intro rel_ret i
      have hle : rel_ret ≤ (if e.docId ∈ relevant_docs then rel_ret + 1 else rel_ret) := by
        by_cases h : e.docId ∈ relevant_docs <;> simp [h]
      have hq : (rel_ret : ℚ) / (num_relevant : ℚ) ≤
          ((if e.docId ∈ relevant_docs then rel_ret + 1 else rel_ret : ℕ) : ℚ) /
            (num_relevant : ℚ) := by
        rw [div_eq_mul_inv, div_eq_mul_inv]
        exact mul_le_mul_of_nonneg_right (by exact_mod_cast hle)
          (inv_nonneg.mpr (by positivity))
      obtain ⟨hchain, hbound⟩ :=
        ih (if e.docId ∈ relevant_docs then rel_ret + 1 else rel_ret) (i + 1)
      constructor
      · simp only [metrics_loop]
        refine List.chain'_cons'.mpr ⟨?_, hchain⟩
        intro y hy
        exact hbound y (List.mem_of_mem_head? hy)
      · simp only [metrics_loop]
        intro x hx
        rcases List.mem_cons.mp hx with h | h
        · exact h ▸ hq
        · exact le_trans hq (hbound x h)

/-- C10: for every relevant-document set and rank-ordered retrieved list,
the sequence of recall values computed position by position by
`calculate_metrics` is monotonically non-decreasing. -/
theorem recall_at_ranks_monotone (relevant_docs : List String)
    (retrieved_docs : List Retrieved) :
    (recall_at_ranks relevant_docs retrieved_docs).Chain' (· ≤ ·) :=
  (metrics_loop_recall_chain relevant_docs relevant_docs.length retrieved_docs 0 0).1

/-- The precision sum accumulated by the AP loop is non-negative. -/
theorem ap_loop_sum_nonneg (relevant_docs : List String) :
    ∀ (retrieved_docs : List Retrieved) (rel_found i : ℕ),
      0 ≤ (ap_loop relevant_docs retrieved_docs rel_found i).2 := by
  intro retrieved_docs
  induction retrieved_docs with
  | nil => intro rel_found i; simp [ap_loop]
  | cons e rest ih =>
      intro rel_found i
      by_cases h : e.docId ∈ relevant_docs
      · simp only [ap_loop, if_pos h]
        have hp : (0 : ℚ) ≤ ((rel_found + 1 : ℕ) : ℚ) / ((i : ℚ) + 1) := by positivity
        exact add_nonneg hp (ih (rel_found + 1) (i + 1))
      · simpa only [ap_loop, if_neg h] using ih rel_found (i + 1)

/-- The precision sum accumulated by the AP loop is at most the number of
relevant positions of the list, as long as the running count does not
exceed the running position — each added term is then at most 1. -/
theorem ap_loop_sum_le_hits (relevant_docs : List String) :
    ∀ (retrieved_docs : List Retrieved) (rel_found i : ℕ), rel_found ≤ i →
      (ap_loop relevant_docs retrieved_docs rel_found i).2 ≤
        ((retrieved_docs.filter (fun e => decide (e.docId ∈ relevant_docs))).length : ℚ) := by
  intro retrieved_docs
  induction retrieved_docs with
  | nil => intro rel_found i _; simp [ap_loop]
  | cons e rest ih =>
      intro rel_found i hfi
      by_cases h : e.docId ∈ relevant_docs
      · simp only [ap_loop, if_pos h]
        have hp : ((rel_found + 1 : ℕ) : ℚ) / ((i : ℚ) + 1) ≤ 1 := by
          rw [div_le_one (by positivity)]
          push_cast
          exact_mod_cast add_le_add_right hfi 1
        have hrest := ih (rel_found + 1) (i + 1) (by omega)
        calc ((rel_found + 1 : ℕ) : ℚ) / ((i : ℚ) + 1) +
              (ap_loop relevant_docs rest (rel_found + 1) (i + 1)).2
            ≤ 1 + ((rest.filter (fun e => decide (e.docId ∈ relevant_docs))).length : ℚ) :=
              add_le_add hp hrest
          _ = (((e :: rest).filter (fun e => decide (e.docId ∈ relevant_docs))).length : ℚ) := by
              simp [List.filter_cons, h]
              ring
      · simp only [ap_loop, if_neg h]
        have hrest := ih rel_found (i + 1) (by omega)
        calc (ap_loop relevant_docs rest rel_found (i + 1)).2
            ≤ ((rest.filter (fun e => decide (e.docId ∈ relevant_docs))).length : ℚ) := hrest
          _ = (((e :: rest).filter (fun e => decide (e.docId ∈ relevant_docs))).length : ℚ) := by
              simp [List.filter_cons, h]

/-- When the retrieved document ids are pairwise distinct, the number of
relevant positions is at most the number of relevant documents: the hit
ids form a duplicate-free sublist of the relevant set. -/
theorem hits_le_num_relevant (relevant_docs : List String) (retrieved_docs : List Retrieved)
    (hnd : (retrieved_docs.map (fun e => e.docId)).Nodup) :
    (retrieved_docs.filter (fun e => decide (e.docId ∈ relevant_docs))).length ≤
      relevant_docs.length := by
  have hsub : ((retrieved_docs.filter
      (fun e => decide (e.docId ∈ relevant_docs))).map (fun e => e.docId)).Sublist
      (retrieved_docs.map (fun e => e.docId)) :=
    (List.filter_sublist retrieved_docs).map _
  have hnd' := hsub.nodup hnd
  have hsubset : ((retrieved_docs.filter
      (fun e => decide (e.docId ∈ relevant_docs))).map (fun e => e.docId)) ⊆
      relevant_docs := by
    intro d hd
    obtain ⟨e, he, rfl⟩ := List.mem_map.mp hd
    exact of_decide_eq_true (List.mem_filter.mp he).2
  have := (hnd'.subperm hsubset).length_le
  simpa using this

/-- When every retrieved document is relevant, every term of the AP loop
entered with matching count and position equals 1, so its sum is the
length of the list and its final count grows by exactly that length. -/
theorem ap_loop_all_relevant (relevant_docs : List String) :
    ∀ (retrieved_docs : List Retrieved) (i : ℕ),
      (∀ e ∈ retrieved_docs, e.docId ∈ relevant_docs) →
      ap_loop relevant_docs retrieved_docs i i =
        (i + retrieved_docs.length, (retrieved_docs.length : ℚ)) := by
  intro retrieved_docs
  induction retrieved_docs with
  | nil => intro i _; simp [ap_loop]
  | cons e rest ih =>
      intro i hall
      have he : e.docId ∈ relevant_docs := hall e (List.mem_cons_self e rest)
      have hrest : ∀ x ∈ rest, x.docId ∈ relevant_docs :=
        fun x hx => hall x (List.mem_cons_of_mem e hx)
      have hne : ((i : ℚ) + 1) ≠ 0 := by positivity
      simp only [ap_loop, if_pos he, ih (i + 1) hrest, Prod.mk.injEq, List.length_cons]
      constructor
      · omega
      · push_cast
        rw [div_self hne]
        ring

/-- C3 counterexample: with relevant set `{D1}` and the retrieved list
`[D1, D1]` — duplicate document ids, as nothing in `load_results`
forbids them — the Average Precision of `calculate_average_precision`
is `2`, outside `[0, 1]`; the claim fails as stated for every retrieved
list. -/
theorem calculate_average_precision_above_one :
    calculate_average_precision ["D1"] [⟨"D1", 1, 0⟩, ⟨"D1", 2, 0⟩] = 2 ∧
    ¬ calculate_average_precision ["D1"] [⟨"D1", 1, 0⟩, ⟨"D1", 2, 0⟩] ≤ 1 := by
  have h : calculate_average_precision ["D1"] [⟨"D1", 1, 0⟩, ⟨"D1", 2, 0⟩] = 2 := by
    simp [calculate_average_precision, ap_loop]
    norm_num
  exact ⟨h, by rw [h]; norm_num⟩

/-- C3 (amended): for every relevant-document set and every retrieved
list whose document ids are pairwise distinct, the Average Precision lies
in `[0, 1]`; and it equals `1.0` when the relevant set is non-empty and
duplicate-free, every retrieved document is relevant and every relevant
document is retrieved. -/
theorem calculate_average_precision_bounds (relevant_docs : List String)
    (retrieved_docs : List Retrieved)
    (hnd : (retrieved_docs.map (fun e => e.docId)).Nodup) :
    0 ≤ calculate_average_precision relevant_docs retrieved_docs ∧
    calculate_average_precision relevant_docs retrieved_docs ≤ 1 ∧
    (relevant_docs ≠ [] → relevant_docs.Nodup →
      (∀ e ∈ retrieved_docs, e.docId ∈ relevant_docs) →
      (∀ d ∈ relevant_docs, d ∈ retrieved_docs.map (fun e => e.docId)) →
      calculate_average_precision relevant_docs retrieved_docs = 1) := by
  have hdef : calculate_average_precision relevant_docs retrieved_docs =
      if relevant_docs.isEmpty then 0
      else if (ap_loop relevant_docs retrieved_docs 0 0).1 = 0 then 0
      else (ap_loop relevant_docs retrieved_docs 0 0).2 / (relevant_docs.length : ℚ) := rfl
  refine ⟨?_, ?_, ?_⟩
  · rw [hdef]
    split
    · exact le_refl 0
    · split
      · exact le_refl 0
      · exact div_nonneg (ap_loop_sum_nonneg relevant_docs retrieved_docs 0 0)
          (by positivity)
  · rw [hdef]
    split
    · exact zero_le_one
    · next hne =>
      split
      · exact zero_le_one
      · have hlen : 0 < relevant_docs.length := by
          cases relevant_docs with
          | nil => simp at hne
          | cons a l => simp
        rw [div_le_one (by exact_mod_cast hlen)]
        calc (ap_loop relevant_docs retrieved_docs 0 0).2
            ≤ ((retrieved_docs.filter
                (fun e => decide (e.docId ∈ relevant_docs))).length : ℚ) :=
              ap_loop_sum_le_hits relevant_docs retrieved_docs 0 0 (le_refl 0)
          _ ≤ (relevant_docs.length : ℚ) := by
              exact_mod_cast hits_le_num_relevant relevant_docs retrieved_docs hnd
  · intro hne hndrel hall hcover
    have hloop : ap_loop relevant_docs retrieved_docs 0 0 =
        (retrieved_docs.length, (retrieved_docs.length : ℚ)) := by
      simpa using ap_loop_all_relevant relevant_docs retrieved_docs 0 hall
    have hsubset : (retrieved_docs.map (fun e => e.docId)) ⊆ relevant_docs := by
      intro d hd
      obtain ⟨e, he, rfl⟩ := List.mem_map.mp hd
      exact hall e he
    have hlen_le : retrieved_docs.length ≤ relevant_docs.length := by
      have := (hnd.subperm hsubset).length_le
      simpa using this
    have hlen_ge : relevant_docs.length ≤ retrieved_docs.length := by
      have := (hndrel.subperm hcover).length_le
      simpa using this
    have hlen : retrieved_docs.length = relevant_docs.length :=
      Nat.le_antisymm hlen_le hlen_ge
    have hretne : retrieved_docs.length ≠ 0 := by
      intro h0
      have : relevant_docs.length = 0 := by omega
      exact hne (List.length_eq_zero.mp this)
    rw [hdef, if_neg (by simpa [List.isEmpty_iff] using hne), hloop]
    rw [if_neg (by simpa using hretne)]
    have hq : ((relevant_docs.length : ℚ)) ≠ 0 := by
      exact_mod_cast fun h => hne (List.length_eq_zero.mp h)
    rw [hlen]
    simp [div_self hq]

/-- C2: when no query is present in both `qrels` and `results` with a
non-empty relevant set, `calculate_metrics` leaves the aggregate
dictionary empty without any division, and `print_results` then fails
with a missing-key error (`KeyError: map`, caught by `main`, which exits
non-zero) instead of reporting zero/undefined aggregates — evaluated here
on a qrels with one judged query whose relevant set is empty. -/
theorem calculate_metrics_no_queries_keyerror :
    calculate_metrics [("1", [])] [("1", [⟨"D1", 1, 1⟩])] = (none, []) ∧
    print_results (calculate_metrics [("1", [])] [("1", [⟨"D1", 1, 1⟩])]).1
      (calculate_metrics [("1", [])] [("1", [⟨"D1", 1, 1⟩])]).2 =
      Except.error [] := ⟨rfl, rfl⟩

/-- C3 witness: relevant set `{D1}` with the single-element retrieved
list `[D1]` has duplicate-free ids, AP within bounds, and AP exactly 1
under perfect retrieval. -/
theorem calculate_average_precision_bounds_witness :
    0 ≤ calculate_average_precision ["D1"] [⟨"D1", 1, 0⟩] ∧
    calculate_average_precision ["D1"] [⟨"D1", 1, 0⟩] ≤ 1 ∧
    calculate_average_precision ["D1"] [⟨"D1", 1, 0⟩] = 1 :=
  ⟨(calculate_average_precision_bounds ["D1"] [⟨"D1", 1, 0⟩] (by decide)).1,
   (calculate_average_precision_bounds ["D1"] [⟨"D1", 1, 0⟩] (by decide)).2.1,
   (calculate_average_precision_bounds ["D1"] [⟨"D1", 1, 0⟩] (by decide)).2.2
     (by decide) (by decide) (by decide) (by decide)⟩

end TrecEval

namespace IRSystem

/-- C4: For every input text, the token sequence returned by `preprocess`
is identical whether its `stemming` parameter is passed as `True` or as
`False`: the declared flag has no effect on the output, which depends only
on whether a stemmer is importable in the environment. -/
theorem preprocess_ignores_stemming_flag (stemmer : Option (String → String))
    (stopwords : List String) (text : String) (b₁ b₂ : Bool) :
    preprocess stemmer stopwords text b₁ = preprocess stemmer stopwords text b₂ := rfl

/-- C9 counterexample: with a stemmer available (as the code enables
whenever NLTK is importable), `preprocess` of the text `running` with
stopword set `{run}` returns the token `run`, which is a member of the
stopword set — so it is false that every returned token has length > 1
and avoids the stopword set for every input text and stopword set. -/
theorem preprocess_filter_violated_by_stemmer :
    ¬ (∀ t ∈ preprocess (some runStem) ["run"] "running" true,
        1 < t.length ∧ t ∉ ["run"]) := by decide

/-- C9 (amended): for every input text and stopword set, every token
returned by `preprocess` has length > 1 and is not a member of the
stopword set, provided no stemmer is available in the environment (the
`ImportError` path); with a stemmer, the guarantee holds only for the
tokens before stemming. -/
theorem preprocess_filter_no_stemmer (stopwords : List String) (text : String)
    (b : Bool) (t : String) (ht : t ∈ preprocess none stopwords text b) :
    1 < t.length ∧ t ∉ stopwords := by
  unfold preprocess at ht
  by_cases h0 : text = ""
  · simp [h0] at ht
  · simp only [if_neg h0] at ht
    have h := (List.mem_filter.mp ht).2
    have h' := of_decide_eq_true h
    exact ⟨h'.2, h'.1⟩

/-- C9 witness: on the concrete text `hello the x world` with stopword set
`{the}` and no stemmer, the returned token `hello` has length > 1 and is
not a stopword. -/
theorem preprocess_filter_no_stemmer_witness :
    1 < "hello".length ∧ "hello" ∉ ["the"] :=
  preprocess_filter_no_stemmer ["the"] "hello the x world" true "hello" (by decide)

/-- Over an empty inverted index every query term is skipped by the
`if term not in inverted_index: continue` test, so the score dictionary
never receives an entry and no posting is ever processed. -/
theorem score_query_empty_index (query_tokens : List String)
    (doc_lengths : List (String × ℕ)) (avg_doc_length : ℚ) (num_docs : ℕ) :
    score_query query_tokens [] doc_lengths avg_doc_length num_docs =
      Except.ok [] := by
  induction query_tokens with
  | nil => rfl
  | cons t ts ih => exact ih

/-- C5: on an empty corpus, `build_index` produces average document
length `0`, and `score_query` run on its output performs no division by
zero — it returns the empty score mapping successfully rather than the
`ZeroDivisionError` outcome. -/
theorem score_query_empty_corpus (stemmer : Option (String → String))
    (stopwords : List String) (use_full_text : Bool) (query_tokens : List String) :
    (build_index stemmer stopwords [] use_full_text).avg_doc_length = 0 ∧
    score_query query_tokens
      (build_index stemmer stopwords [] use_full_text).inverted_index
      (build_index stemmer stopwords [] use_full_text).doc_lengths
      (build_index stemmer stopwords [] use_full_text).avg_doc_length
      (build_index stemmer stopwords [] use_full_text).num_docs = Except.ok [] :=
  ⟨rfl, score_query_empty_index query_tokens [] 0 0⟩

/-- C6: for every term with document frequency `1 ≤ df ≤ N`, the idf
value computed by `score_query`, `ln((N - df + 0.5) / (df + 0.5) + 1)`,
is non-negative: the ratio is non-negative because `N - df + 0.5 > 0`,
so the argument of the logarithm is at least 1. -/
theorem idf_nonneg (num_docs n_docs_with_term : ℕ)
    (h1 : 1 ≤ n_docs_with_term) (h2 : n_docs_with_term ≤ num_docs) :
    0 ≤ idf num_docs n_docs_with_term := by
  unfold idf
  apply Real.log_nonneg
  have hcast : (n_docs_with_term : ℝ) ≤ (num_docs : ℝ) := by exact_mod_cast h2
  have hnum : (0 : ℝ) ≤ (num_docs : ℝ) - (n_docs_with_term : ℝ) + 0.5 := by linarith
  have hden : (0 : ℝ) < (n_docs_with_term : ℝ) + 0.5 := by positivity
  have := div_nonneg hnum (le_of_lt hden)
  linarith

/-- C6 witness: at `df = 1`, `N = 1` the hypotheses hold and the idf is
non-negative. -/
theorem idf_nonneg_witness : (1 ≤ 1 ∧ 1 ≤ 1) ∧ 0 ≤ idf 1 1 :=
  ⟨⟨le_refl 1, le_refl 1⟩, idf_nonneg 1 1 (le_refl 1) (le_refl 1)⟩

/-- C7: for every score mapping, the ranking step of `run_system` emits
at most 100 entries, ordered by score descending, with ranks
`1, 2, 3, …` assigned densely in output order. -/
theorem rank_and_truncate_spec (doc_scores : List (String × ℝ)) :
    (rank_and_truncate doc_scores).length ≤ 100 ∧
    (rank_and_truncate doc_scores).map (fun e => e.2.1) =
      List.range' 1 (rank_and_truncate doc_scores).length ∧
    (rank_and_truncate doc_scores).Pairwise (fun x y => y.2.2 ≤ x.2.2) := by
  have hlen : (rank_and_truncate doc_scores).length =
      ((List.insertionSort (fun x y : String × ℝ => y.2 ≤ x.2) doc_scores).take
        100).length := by
    simp [rank_and_truncate]
  refine ⟨?_, ?_, ?_⟩
  · rw [hlen, List.length_take]
    exact min_le_left _ _
  · rw [hlen]
    unfold rank_and_truncate
    rw [List.map_map]
    have henum : ∀ (l : List (String × ℝ)),
        l.enum.map ((fun e : String × ℕ × ℝ => e.2.1) ∘
          (fun p : ℕ × String × ℝ => (p.2.1, p.1 + 1, p.2.2))) =
          (List.range l.length).map (fun n => n + 1) := by
      intro l
      have : l.enum.map ((fun e : String × ℕ × ℝ => e.2.1) ∘
          (fun p : ℕ × String × ℝ => (p.2.1, p.1 + 1, p.2.2))) =
          (l.enum.map Prod.fst).map (fun n => n + 1) := by
        rw [List.map_map]
        rfl
      rw [this, List.enum_eq_zip_range, List.map_fst_zip _ _ (by simp)]
    rw [henum, List.range'_eq_map_range]
    exact List.map_congr_left (fun a _ => Nat.add_comm a 1)
  · have htotal : IsTotal (String × ℝ) (fun x y => y.2 ≤ x.2) :=
      ⟨fun x y => le_total y.2 x.2⟩
    have htrans : IsTrans (String × ℝ) (fun x y => y.2 ≤ x.2) :=
      ⟨fun _ _ _ hab hbc => le_trans hbc hab⟩
    have hsorted : ((List.insertionSort (fun x y : String × ℝ => y.2 ≤ x.2)
        doc_scores).take 100).Pairwise (fun x y => y.2 ≤ x.2) :=
      List.Pairwise.sublist (List.take_sublist _ _)
        (List.sorted_insertionSort (fun x y : String × ℝ => y.2 ≤ x.2) doc_scores)
    have henum : (((List.insertionSort (fun x y : String × ℝ => y.2 ≤ x.2)
        doc_scores).take 100).enum).Pairwise
        (fun p q : ℕ × String × ℝ => q.2.2 ≤ p.2.2) := by
      have h := hsorted
      rw [← List.enum_map_snd ((List.insertionSort
        (fun x y : String × ℝ => y.2 ≤ x.2) doc_scores).take 100)] at h
      exact List.pairwise_map.mp h
    unfold rank_and_truncate
    exact List.pairwise_map.mpr henum

end IRSystem
